import Mathlib

/-!
Shallow embedding of `internal/db/bundb/bundb.go` (GoToSocial persistence
layer): the reference-resolver conversion functions
(`MentionStringsToMentions`, `TagStringsToTags`, `EmojiStringsToEmojis`),
the postgres option derivation (`deriveBunDBPGOptions`) and the migration
runner (`doMigration`).

The SQL store is modelled as an in-memory list of rows; a bun
`NewSelect ... Scan` that can return `sql.ErrNoRows` becomes a
`List.find?` returning `Option` (the pure model has no other I/O failure,
so the "serious error" branches of the Go code cannot fire).  `LOWER(x)`
becomes a character-wise lowercase map, `domain IS NULL` becomes
`Option.isNone`.  Randomness (`id.NewRandomULID`) and wall-clock time
(`time.Now`) are injected as parameters, and the filesystem / x509
primitives used by `deriveBunDBPGOptions` are an explicit environment
record.  String splitting and lowering are defined structurally over the
character list so that every definition evaluates inside the kernel.
-/

deriving instance DecidableEq for Except

/-- Boolean test for the error side of an `Except`. -/
def exceptIsError {ε α : Type} : Except ε α → Bool
  | Except.error _ => true
  | Except.ok _ => false

/-- Model of SQL `LOWER` / Go case-insensitive comparison: character-wise
lowercasing of the string. -/
def sqlLower (s : String) : String := String.mk (s.data.map Char.toLower)

/-- Helper for `goSplitAt`: prepend a character to the first chunk. -/
def consHead (c : Char) : List (List Char) → List (List Char)
  | [] => [[c]]
  | w :: ws => (c :: w) :: ws

/-- Model of Go `strings.Split(t, "@")` over the character list: split at
every `@`, keeping empty chunks, so the empty string yields one empty
chunk. -/
def goSplitAt : List Char → List (List Char)
  | [] => [[]]
  | c :: cs => if c = '@' then [] :: goSplitAt cs else consHead c (goSplitAt cs)

/-- The token preprocessing of bundb.go lines 403-407:
`strings.TrimPrefix(a, "@")` followed by `strings.Split(t, "@")`. -/
def mentionSegments (a : String) : List String :=
  let t : List Char :=
    match a.data with
    | '@' :: rest => rest
    | cs => cs
  (goSplitAt t).map String.mk

/-- Row of the `accounts` table, restricted to the columns bundb.go touches:
`id`, `username`, `domain` (NULL for local accounts), `uri`, `url`. -/
structure Account where
  id : String
  username : String
  domain : Option String
  uri : String
  url : String
deriving DecidableEq, Repr

/-- `gtsmodel.Mention` as populated by `MentionStringsToMentions`
(bundb.go lines 455-464); `originAccount` is the embedded
`OriginAccount` struct pointer. -/
structure Mention where
  statusID : String
  originAccountID : String
  originAccountURI : String
  targetAccountID : String
  nameString : String
  targetAccountURI : String
  targetAccountURL : String
  originAccount : Option Account
deriving DecidableEq, Repr

/-- Parsing of one mention token (bundb.go lines 403-429): after the
trim-and-split, one segment means local, two means remote, anything else
is the "mentioned account format was not valid" error; an empty username,
or an empty domain on the remote form, is the "username or domain was
nil" error. -/
def parseMentionToken (a : String) : Except String (String × Option String) :=
  match mentionSegments a with
  | [u] =>
    if u = "" then
      Except.error ("username or domain for " ++ a ++ " was nil")
    else
      Except.ok (u, none)
  | [u, d] =>
    if u = "" ∨ d = "" then
      Except.error ("username or domain for " ++ a ++ " was nil")
    else
      Except.ok (u, some d)
  | _ => Except.error ("mentioned account format " ++ a ++ " was not valid")

/-- The account lookup of bundb.go lines 436-442.  Local:
`LOWER(username) = LOWER(?) AND domain IS NULL`.  Remote:
`LOWER(username) = LOWER(?) AND LOWER(domain) = LOWER(?)` (a NULL domain
never satisfies the second comparison). -/
def lookupMentioned (accounts : List Account) : String × Option String → Option Account
  | (u, none) =>
    accounts.find? (fun acct => sqlLower acct.username == sqlLower u && acct.domain.isNone)
  | (u, some d) =>
    accounts.find? (fun acct =>
      sqlLower acct.username == sqlLower u &&
        match acct.domain with
        | some dd => sqlLower dd == sqlLower d
        | none => false)

/-- The mention record built at bundb.go lines 455-464.  Note that the
embedded `OriginAccount` object is set to `mentionedAccount`, the target
of the mention, while the origin id/uri fields come from `ogAccount`. -/
def mkMention (statusID : String) (ogAccount : Account) (a : String)
    (mentionedAccount : Account) : Mention :=
  { statusID := statusID
    originAccountID := ogAccount.id
    originAccountURI := ogAccount.uri
    targetAccountID := mentionedAccount.id
    nameString := a
    targetAccountURI := mentionedAccount.uri
    targetAccountURL := mentionedAccount.url
    originAccount := some mentionedAccount }

/-- The per-token loop of `MentionStringsToMentions` (bundb.go lines
398-465): a parse failure aborts the batch, a lookup miss
(`sql.ErrNoRows`) skips the token, a hit appends exactly one mention. -/
def mentionsLoop (accounts : List Account) (ogAccount : Account) (statusID : String) :
    List String → Except String (List Mention)
  | [] => Except.ok []
  | a :: rest =>
    match parseMentionToken a with
    | Except.error e => Except.error e
    | Except.ok pr =>
      match lookupMentioned accounts pr with
      | none => mentionsLoop accounts ogAccount statusID rest
      | some acct =>
        match mentionsLoop accounts ogAccount statusID rest with
        | Except.error e => Except.error e
        | Except.ok ms => Except.ok (mkMention statusID ogAccount a acct :: ms)

/-- `MentionStringsToMentions` (bundb.go lines 391-467).  The origin
account is selected by id first; `sql.ErrNoRows` there is returned as-is. -/
def MentionStringsToMentions (accounts : List Account) (targetAccounts : List String)
    (originAccountID : String) (statusID : String) : Except String (List Mention) :=
  match accounts.find? (fun acct => acct.id == originAccountID) with
  | none => Except.error "sql: no rows in result set"
  | some ogAccount => mentionsLoop accounts ogAccount statusID targetAccounts

/-- Row of the `tags` table restricted to the fields bundb.go touches.
Timestamps are modelled as naturals; the Go zero `time.Time` is `0`. -/
structure Tag where
  id : String
  url : String
  name : String
  firstSeenFromAccountID : String
  createdAt : Nat
  updatedAt : Nat
  useable : Bool
  listable : Bool
  lastStatusAt : Nat
deriving DecidableEq, Repr

/-- The brand-new tag populated at bundb.go lines 481-492 when the select
finds no row: fresh ULID (`newID`), canonical URL
`protocol://host/tags/name`, the raw token as name, creator attribution
and `Useable = Listable = true`; `LastStatusAt` is left at its zero
value. -/
def mkNewTag (protocol host originAccountID t newID : String) (now : Nat) : Tag :=
  { id := newID
    url := protocol ++ "://" ++ host ++ "/tags/" ++ t
    name := t
    firstSeenFromAccountID := originAccountID
    createdAt := now
    updatedAt := now
    useable := true
    listable := true
    lastStatusAt := 0 }

/-- The `tag.LastStatusAt = time.Now()` update of bundb.go line 502. -/
def tagAfterUse (tag : Tag) (now : Nat) : Tag :=
  { tag with lastStatusAt := now }

/-- The per-tag loop of `TagStringsToTags` (bundb.go lines 474-504): select
by `LOWER(name) = LOWER(?)`; on `sql.ErrNoRows` build a new tag with the
next fresh id (`k` counts ids consumed so far, modelling
`id.NewRandomULID`); tags that are not useable are dropped; every kept
tag gets `LastStatusAt` set to now before being appended. -/
def tagsLoop (tagDB : List Tag) (protocol host originAccountID : String)
    (genID : Nat → String) (now : Nat) : List String → Nat → List Tag
  | [], _ => []
  | t :: rest, k =>
    match tagDB.find? (fun tg => sqlLower tg.name == sqlLower t) with
    | some tg =>
      if tg.useable then
        tagAfterUse tg now :: tagsLoop tagDB protocol host originAccountID genID now rest k
      else
        tagsLoop tagDB protocol host originAccountID genID now rest k
    | none =>
      let tg := mkNewTag protocol host originAccountID t (genID k) now
      if tg.useable then
        tagAfterUse tg now :: tagsLoop tagDB protocol host originAccountID genID now rest (k + 1)
      else
        tagsLoop tagDB protocol host originAccountID genID now rest (k + 1)

/-- `TagStringsToTags` (bundb.go lines 469-506).  `protocol` and `host`
stand for the viper config reads; `genID` supplies the ULIDs that
`id.NewRandomULID` would draw and `now` stands for `time.Now()`.  In the
pure model neither the select nor ULID generation can fail, so the
result is always `ok`. -/
def TagStringsToTags (tagDB : List Tag) (protocol host : String) (genID : Nat → String)
    (now : Nat) (tags : List String) (originAccountID : String) : Except String (List Tag) :=
  Except.ok (tagsLoop tagDB protocol host originAccountID genID now tags 0)

/-- Row of the `emojis` table restricted to the columns bundb.go touches. -/
structure Emoji where
  id : String
  shortcode : String
  visibleInPicker : Bool
  disabled : Bool
deriving DecidableEq, Repr

/-- The per-shortcode loop of `EmojiStringsToEmojis` (bundb.go lines
510-523): select by exact shortcode with
`visible_in_picker = true AND disabled = false`; `sql.ErrNoRows` skips
the shortcode, a hit appends the found emoji.  No creation path exists. -/
def emojiLoop (emojiDB : List Emoji) : List String → List Emoji
  | [] => []
  | e :: rest =>
    match emojiDB.find? (fun em => em.shortcode == e && em.visibleInPicker && !em.disabled) with
    | none => emojiLoop emojiDB rest
    | some em => em :: emojiLoop emojiDB rest

/-- `EmojiStringsToEmojis` (bundb.go lines 508-525); in the pure model the
select cannot fail for a reason other than no-rows, so the result is
always `ok`. -/
def EmojiStringsToEmojis (emojiDB : List Emoji) (emojis : List String) :
    Except String (List Emoji) :=
  Except.ok (emojiLoop emojiDB emojis)

/-- The configuration values read by `deriveBunDBPGOptions` through viper
(bundb.go lines 276-373). -/
structure DBConfig where
  dbType : String
  dbPort : Nat
  dbAddress : String
  dbUser : String
  dbPassword : String
  dbDatabase : String
  dbTLSMode : String
  dbTLSCACert : String
  applicationName : String
deriving DecidableEq, Repr

/-- The `tls.Config` fields bundb.go sets (lines 318-328, 362): skip-verify
for mode `enable`; server name and TLS 1.2 minimum for mode `require`;
`rootCAs` holds the abstract parsed CA certificate once added. -/
structure TLSConfig where
  insecureSkipVerify : Bool
  serverName : String
  minVersionTLS12 : Bool
  rootCAs : Option String
deriving DecidableEq, Repr

/-- Environment abstracting the filesystem and x509 primitives used by the
CA-certificate block (bundb.go lines 331-363): `os.ReadFile`,
`pem.Decode` (returning the DER bytes of the first PEM block, if any),
`x509.ParseCertificate` and `x509.SystemCertPool`. -/
structure CertEnv where
  systemCertPool : Except String Unit
  readFile : String → Except String String
  pemDecode : String → Option String
  parseCertificate : String → Except String String

/-- The fields of `pgx.ConnConfig` that bundb.go populates (lines 365-373). -/
structure ConnConfig where
  host : String
  port : Nat
  user : String
  password : String
  tlsConfig : Option TLSConfig
  database : String
  preferSimpleProtocol : Bool
  applicationName : String

/-- The CA-certificate block of bundb.go lines 331-363, entered only when a
TLS config was built and a CA path is set: fetch the system pool, read
the file, reject an empty file, reject bytes with no PEM block, parse
the block into a certificate and install it as the root CA pool. -/
def withCACert (env : CertEnv) (caCertPath : String) :
    Option TLSConfig → Except String (Option TLSConfig)
  | none => Except.ok none
  | some tc =>
    if caCertPath = "" then Except.ok (some tc)
    else
      match env.systemCertPool with
      | Except.error e => Except.error ("error fetching system CA cert pool: " ++ e)
      | Except.ok _ =>
        match env.readFile caCertPath with
        | Except.error e =>
          Except.error ("error opening CA certificate at " ++ caCertPath ++ ": " ++ e)
        | Except.ok caCertBytes =>
          if caCertBytes.length = 0 then
            Except.error ("ca cert at " ++ caCertPath ++ " was empty")
          else
            match env.pemDecode caCertBytes with
            | none => Except.error ("could not parse cert at " ++ caCertPath ++ " into PEM")
            | some der =>
              match env.parseCertificate der with
              | Except.error e =>
                Except.error ("could not parse cert at " ++ caCertPath ++
                  " into x509 certificate: " ++ e)
              | Except.ok caCert => Except.ok (some { tc with rootCAs := some caCert })

/-- Model of SQL-style upper casing used for the db-type comparison. -/
def sqlUpper (s : String) : String := String.mk (s.data.map Char.toUpper)

/-- `deriveBunDBPGOptions` (bundb.go lines 276-376).  `db.DBTypePostgres`
(defined outside the sample, compared against `strings.ToUpper` of the
configured type) is the string POSTGRES.  Field checks run in source
order before any TLS work; the TLS switch maps `disable` and the empty
string to no TLS config, `enable` to skip-verify, `require` to full
verification, and any other string falls through the switch to no TLS
config; finally the CA block of `withCACert` runs and the `ConnConfig`
is assembled.  No connection is attempted here. -/
def deriveBunDBPGOptions (env : CertEnv) (cfg : DBConfig) : Except String ConnConfig :=
  if sqlUpper cfg.dbType ≠ "POSTGRES" then
    Except.error ("expected db type of POSTGRES but got " ++ cfg.dbType)
  else if cfg.dbPort = 0 then Except.error "no port set"
  else if cfg.dbAddress = "" then Except.error "no address set"
  else if cfg.dbUser = "" then Except.error "no user set"
  else if cfg.dbPassword = "" then Except.error "no password set"
  else if cfg.dbDatabase = "" then Except.error "no database set"
  else
    let tlsConfig : Option TLSConfig :=
      if cfg.dbTLSMode = "disable" ∨ cfg.dbTLSMode = "" then none
      else if cfg.dbTLSMode = "enable" then
        some { insecureSkipVerify := true, serverName := "", minVersionTLS12 := false,
               rootCAs := none }
      else if cfg.dbTLSMode = "require" then
        some { insecureSkipVerify := false, serverName := cfg.dbAddress,
               minVersionTLS12 := true, rootCAs := none }
      else none
    match withCACert env cfg.dbTLSCACert tlsConfig with
    | Except.error e => Except.error e
    | Except.ok tlsCfg =>
      Except.ok
        { host := cfg.dbAddress
          port := cfg.dbPort
          user := cfg.dbUser
          password := cfg.dbPassword
          tlsConfig := tlsCfg
          database := cfg.dbDatabase
          preferSimpleProtocol := true
          applicationName := cfg.applicationName }

/-- The migration group returned by `migrator.Migrate`; id 0 means the
migrator found nothing new to apply. -/
structure MigrationGroup where
  id : Nat
deriving DecidableEq, Repr

/-- Abstract behaviour of the bun migrator as observed by `doMigration`:
the results of `migrator.Init` and `migrator.Migrate`. -/
structure Migrator where
  initResult : Except String Unit
  migrateResult : Except String MigrationGroup

/-- `doMigration` (bundb.go lines 91-115), with the log lines it emits as
the `ok` payload: an `Init` error aborts; a `Migrate` error equal to
"migrate: there are no any migrations" is tolerated silently; group id 0
is the already-migrated steady state, logged as such; otherwise the
migrated group is logged. -/
def doMigration (m : Migrator) : Except String (List String) :=
  match m.initResult with
  | Except.error e => Except.error e
  | Except.ok _ =>
    match m.migrateResult with
    | Except.error e =>
      if e = "migrate: there are no any migrations" then Except.ok []
      else Except.error e
    | Except.ok group =>
      if group.id = 0 then Except.ok ["there are no new migrations to run"]
      else Except.ok ["MIGRATED DATABASE TO " ++ toString group.id]

/-- A sample origin account used by concrete witnesses below. -/
def ogSample : Account :=
  { id := "OG", username := "og", domain := none, uri := "u", url := "w" }

/-- A sample local account named alice, used by concrete witnesses below. -/
def aliceSample : Account :=
  { id := "A1", username := "alice", domain := none, uri := "uriA", url := "urlA" }

/-- A sample ULID supply for the tag witnesses. -/
def genSample : Nat → String := fun _ => "01TAG"

/-- A second, distinct ULID supply for the second resolver call. -/
def genSample2 : Nat → String := fun _ => "02TAG"

/-- A sample emoji row for the emoji witnesses. -/
def emojiSample : Emoji :=
  { id := "E1", shortcode := "smile", visibleInPicker := true, disabled := false }

/-- A sample environment whose CA file reads back empty. -/
def envSample : CertEnv :=
  { systemCertPool := Except.ok ()
    readFile := fun _ => Except.ok ""
    pemDecode := fun _ => none
    parseCertificate := fun _ => Except.error "bad" }

/-- A postgres configuration with the port left unset. -/
def cfgNoPort : DBConfig :=
  { dbType := "postgres", dbPort := 0, dbAddress := "localhost", dbUser := "gts"
    dbPassword := "pw", dbDatabase := "gotosocial", dbTLSMode := "disable"
    dbTLSCACert := "", applicationName := "gotosocial" }

/-- A valid postgres configuration with an unrecognized TLS-mode string. -/
def cfgBogusTLS : DBConfig :=
  { dbType := "postgres", dbPort := 5432, dbAddress := "localhost", dbUser := "gts"
    dbPassword := "pw", dbDatabase := "gotosocial", dbTLSMode := "sslmode-what"
    dbTLSCACert := "/tmp/ca.pem", applicationName := "gotosocial" }

/-- The migrator in the already-migrated steady state: nothing pending,
`Migrate` returns group id 0. -/
def steadyMigrator : Migrator :=
  { initResult := Except.ok (), migrateResult := Except.ok { id := 0 } }

/-- The migrator when no migrations are defined at all: `Migrate` fails
with the sentinel message bundb.go matches on. -/
def noDefsMigrator : Migrator :=
  { initResult := Except.ok ()
    migrateResult := Except.error "migrate: there are no any migrations" }

/-- If some token of the batch fails the parse, the whole loop errors out:
tokens before it either error themselves or are processed, and the
malformed token aborts when reached. -/
theorem mentionsLoop_err_of_bad_mem (accounts : List Account) (og : Account) (sID : String)
    {a : String} {tokens : List String} (ha : a ∈ tokens)
    (hbad : exceptIsError (parseMentionToken a) = true) :
    exceptIsError (mentionsLoop accounts og sID tokens) = true := by
  induction tokens with
  | nil => cases ha
  | cons b ts ih =>
    cases ha with
    | head =>
      cases hp : parseMentionToken a with
      | error e => simp [mentionsLoop, hp, exceptIsError]
      | ok pr => rw [hp] at hbad; simp [exceptIsError] at hbad
    | tail _ hmem =>
      have h2 := ih hmem
      cases hp : parseMentionToken b with
      | error e => simp [mentionsLoop, hp, exceptIsError]
      | ok pr =>
        cases hl : lookupMentioned accounts pr with
        | none => simpa [mentionsLoop, hp, hl] using h2
        | some acct =>
          cases hrest : mentionsLoop accounts og sID ts with
          | error e => simp [mentionsLoop, hp, hl, hrest, exceptIsError]
          | ok ms => rw [hrest] at h2; simp [exceptIsError] at h2

/-- Claim C1 (counterexample): `MentionStringsToMentions` on the input list
containing only the token not-a-valid-token does NOT error: the token has
no leading at-sign, so the trim is a no-op, the split yields a single
segment, and the token is treated as a local username lookup which —
finding no account — is silently skipped, returning zero Mentions and no
error. -/
theorem resolveMentions_invalid_token_is_skipped :
    MentionStringsToMentions [ogSample] ["not-a-valid-token"] "OG" "S1" = Except.ok [] := by
  decide

/-- Claim C1 (amended): a token that fails the parse — three or more
at-separated segments after trimming one leading at-sign, or an empty
username, or an empty domain in the remote form — causes the whole call
to return an error and no Mentions, whenever the origin account resolves;
whereas the token not-a-valid-token parses as a local username and is
silently skipped when unmatched, giving zero Mentions and no error. -/
theorem resolveMentions_malformed_token_aborts (accounts : List Account)
    (tokens : List String) (originAccountID statusID a : String) (og : Account)
    (hog : accounts.find? (fun acct => acct.id == originAccountID) = some og)
    (ha : a ∈ tokens)
    (hbad : exceptIsError (parseMentionToken a) = true) :
    exceptIsError (MentionStringsToMentions accounts tokens originAccountID statusID) = true
    ∧ MentionStringsToMentions [ogSample] ["not-a-valid-token"] "OG" "S1" = Except.ok [] := by
  refine ⟨?_, by decide⟩
  unfold MentionStringsToMentions
  rw [hog]
  exact mentionsLoop_err_of_bad_mem accounts og statusID ha hbad

/-- Witness for the amended claim C1 at the malformed token with three
segments. -/
theorem resolveMentions_malformed_token_aborts_witness :
    exceptIsError (MentionStringsToMentions [ogSample] ["@a@b@c"] "OG" "S1") = true
    ∧ MentionStringsToMentions [ogSample] ["not-a-valid-token"] "OG" "S1" = Except.ok [] :=
  resolveMentions_malformed_token_aborts [ogSample] ["@a@b@c"] "OG" "S1" "@a@b@c" ogSample
    (by decide) (by decide) (by decide)

/-- Claim C3: a well-formed token whose account lookup finds no row is
silently skipped: with alice resolving locally and bob@remote.example
resolving to nothing, the call returns exactly the one mention for alice
and no error. -/
theorem resolveMentions_skips_unresolvable (accounts : List Account)
    (originAccountID statusID : String) (og alice : Account)
    (hog : accounts.find? (fun acct => acct.id == originAccountID) = some og)
    (ha : lookupMentioned accounts ("alice", none) = some alice)
    (hb : lookupMentioned accounts ("bob", some "remote.example") = none) :
    MentionStringsToMentions accounts ["@alice", "@bob@remote.example"] originAccountID statusID
      = Except.ok [mkMention statusID og "@alice" alice] := by
  unfold MentionStringsToMentions
  rw [hog]
  have p1 : parseMentionToken "@alice" = Except.ok ("alice", none) := by decide
  have p2 : parseMentionToken "@bob@remote.example"
      = Except.ok ("bob", some "remote.example") := by decide
  simp [mentionsLoop, p1, p2, ha, hb]

/-- Witness for claim C3 on a concrete two-account store. -/
theorem resolveMentions_skips_unresolvable_witness :
    MentionStringsToMentions [ogSample, aliceSample] ["@alice", "@bob@remote.example"] "OG" "S1"
      = Except.ok [mkMention "S1" ogSample "@alice" aliceSample] :=
  resolveMentions_skips_unresolvable [ogSample, aliceSample] "OG" "S1" ogSample aliceSample
    (by decide) (by decide) (by decide)

/-- One resolved token contributes exactly one mention at the head of the
remaining result. -/
theorem mentionsLoop_cons_found (accounts : List Account) (og : Account) (sID a : String)
    (ts : List String) (pr : String × Option String) (acct : Account)
    (hp : parseMentionToken a = Except.ok pr)
    (hl : lookupMentioned accounts pr = some acct) :
    mentionsLoop accounts og sID (a :: ts)
      = Except.map (fun ms => mkMention sID og a acct :: ms) (mentionsLoop accounts og sID ts) := by
  cases hrest : mentionsLoop accounts og sID ts with
  | error e => simp [mentionsLoop, hp, hl, hrest, Except.map]
  | ok ms => simp [mentionsLoop, hp, hl, hrest, Except.map]

/-- Claim C4: for every token whose account lookup succeeds, exactly one
Mention record is appended, and it carries the resolved account's id,
URI and URL as target fields and the verbatim token text as NameString. -/
theorem resolveMentions_resolved_token_one_mention (accounts : List Account)
    (ts : List String) (originAccountID statusID a : String)
    (pr : String × Option String) (og acct : Account)
    (hog : accounts.find? (fun x => x.id == originAccountID) = some og)
    (hp : parseMentionToken a = Except.ok pr)
    (hl : lookupMentioned accounts pr = some acct) :
    MentionStringsToMentions accounts (a :: ts) originAccountID statusID
      = Except.map (fun ms => mkMention statusID og a acct :: ms)
          (MentionStringsToMentions accounts ts originAccountID statusID)
    ∧ (mkMention statusID og a acct).targetAccountID = acct.id
    ∧ (mkMention statusID og a acct).targetAccountURI = acct.uri
    ∧ (mkMention statusID og a acct).targetAccountURL = acct.url
    ∧ (mkMention statusID og a acct).nameString = a := by
  refine ⟨?_, rfl, rfl, rfl, rfl⟩
  unfold MentionStringsToMentions
  rw [hog]
  exact mentionsLoop_cons_found accounts og statusID a ts pr acct hp hl

/-- Witness for claim C4 at the token for alice over a concrete store. -/
theorem resolveMentions_resolved_token_one_mention_witness :
    MentionStringsToMentions [ogSample, aliceSample] ["@alice"] "OG" "S1"
      = Except.map (fun ms => mkMention "S1" ogSample "@alice" aliceSample :: ms)
          (MentionStringsToMentions [ogSample, aliceSample] [] "OG" "S1")
    ∧ (mkMention "S1" ogSample "@alice" aliceSample).targetAccountID = aliceSample.id
    ∧ (mkMention "S1" ogSample "@alice" aliceSample).targetAccountURI = aliceSample.uri
    ∧ (mkMention "S1" ogSample "@alice" aliceSample).targetAccountURL = aliceSample.url
    ∧ (mkMention "S1" ogSample "@alice" aliceSample).nameString = "@alice" :=
  resolveMentions_resolved_token_one_mention [ogSample, aliceSample] [] "OG" "S1" "@alice"
    ("alice", none) ogSample aliceSample (by decide) (by decide) (by decide)

/-- Claim C10: every constructed Mention sets the embedded OriginAccount
object to the mentioned (target) account, while OriginAccountID and
OriginAccountURI come from the origin account. -/
theorem resolveMentions_origin_object_is_target (accounts : List Account)
    (ts : List String) (originAccountID statusID a : String)
    (pr : String × Option String) (og acct : Account)
    (hog : accounts.find? (fun x => x.id == originAccountID) = some og)
    (hp : parseMentionToken a = Except.ok pr)
    (hl : lookupMentioned accounts pr = some acct) :
    MentionStringsToMentions accounts (a :: ts) originAccountID statusID
      = Except.map (fun ms => mkMention statusID og a acct :: ms)
          (MentionStringsToMentions accounts ts originAccountID statusID)
    ∧ (mkMention statusID og a acct).originAccount = some acct
    ∧ (mkMention statusID og a acct).originAccountID = og.id
    ∧ (mkMention statusID og a acct).originAccountURI = og.uri := by
  refine ⟨?_, rfl, rfl, rfl⟩
  unfold MentionStringsToMentions
  rw [hog]
  exact mentionsLoop_cons_found accounts og statusID a ts pr acct hp hl

/-- Witness for claim C10 at the token for alice over a concrete store. -/
theorem resolveMentions_origin_object_is_target_witness :
    MentionStringsToMentions [ogSample, aliceSample] ["@alice"] "OG" "S1"
      = Except.map (fun ms => mkMention "S1" ogSample "@alice" aliceSample :: ms)
          (MentionStringsToMentions [ogSample, aliceSample] [] "OG" "S1")
    ∧ (mkMention "S1" ogSample "@alice" aliceSample).originAccount = some aliceSample
    ∧ (mkMention "S1" ogSample "@alice" aliceSample).originAccountID = ogSample.id
    ∧ (mkMention "S1" ogSample "@alice" aliceSample).originAccountURI = ogSample.uri :=
  resolveMentions_origin_object_is_target [ogSample, aliceSample] [] "OG" "S1" "@alice"
    ("alice", none) ogSample aliceSample (by decide) (by decide) (by decide)

/-- Claim C5: the local lookup succeeds exactly when some stored account
matches the username case-insensitively and has a NULL domain; the
remote lookup succeeds exactly when some stored account matches both
username and domain case-insensitively (a NULL domain never matches). -/
theorem lookupMentioned_characterisation (accounts : List Account) (u d : String) :
    ((lookupMentioned accounts (u, none)).isSome
      ↔ ∃ acct, acct ∈ accounts ∧ sqlLower acct.username = sqlLower u ∧ acct.domain = none)
    ∧ ((lookupMentioned accounts (u, some d)).isSome
      ↔ ∃ acct, acct ∈ accounts ∧ sqlLower acct.username = sqlLower u
          ∧ ∃ dd, acct.domain = some dd ∧ sqlLower dd = sqlLower d) := by
  constructor
  · simp only [lookupMentioned, List.find?_isSome]
    constructor
    · rintro ⟨acct, hmem, hpred⟩
      rw [Bool.and_eq_true, beq_iff_eq, Option.isNone_iff_eq_none] at hpred
      exact ⟨acct, hmem, hpred.1, hpred.2⟩
    · rintro ⟨acct, hmem, h1, h2⟩
      refine ⟨acct, hmem, ?_⟩
      rw [Bool.and_eq_true, beq_iff_eq, Option.isNone_iff_eq_none]
      exact ⟨h1, h2⟩
  · simp only [lookupMentioned, List.find?_isSome]
    constructor
    · rintro ⟨acct, hmem, hpred⟩
      rw [Bool.and_eq_true, beq_iff_eq] at hpred
      obtain ⟨h1, h2⟩ := hpred
      cases hdom : acct.domain with
      | none => rw [hdom] at h2; exact absurd h2 (by simp)
      | some dd =>
        rw [hdom] at h2
        exact ⟨acct, hmem, h1, dd, hdom, by rwa [beq_iff_eq] at h2⟩
    · rintro ⟨acct, hmem, h1, dd, hdom, h2⟩
      refine ⟨acct, hmem, ?_⟩
      rw [Bool.and_eq_true, beq_iff_eq]
      refine ⟨h1, ?_⟩
      rw [hdom]
      rwa [beq_iff_eq]

/-- Claim C2 (counterexample): the first call of `TagStringsToTags` on the
token News over an empty tag store creates a Tag whose name is the
verbatim News, not the case-folded news: `tag.Name = t` stores the raw
token. -/
theorem resolveTags_name_not_casefolded :
    TagStringsToTags [] "https" "example.org" genSample 100 ["News"] "OG"
      = Except.ok [tagAfterUse (mkNewTag "https" "example.org" "OG" "News" "01TAG" 100) 100]
    ∧ (mkNewTag "https" "example.org" "OG" "News" "01TAG" 100).name = "News"
    ∧ "News" ≠ "news" := by
  refine ⟨by decide, by decide, by decide⟩

/-- Claim C2 (amended): over a store with no tag named news
case-insensitively, the first call on News creates exactly one new Tag —
verbatim name News, Useable and Listable true, the first fresh id, URL
derived from protocol and host — and returns it with its last-used
timestamp set; a second call over the store holding that persisted tag
returns the very same tag identifier, only refreshing the last-used
timestamp, and consumes no fresh id, so no duplicate Tag is ever
produced for the same case-insensitive name. -/
theorem resolveTags_create_then_reuse (tagDB : List Tag)
    (protocol host originAccountID : String) (genID genID2 : Nat → String) (now1 now2 : Nat)
    (h : ∀ tg ∈ tagDB, sqlLower tg.name ≠ "news") :
    TagStringsToTags tagDB protocol host genID now1 ["News"] originAccountID
      = Except.ok [tagAfterUse (mkNewTag protocol host originAccountID "News" (genID 0) now1) now1]
    ∧ (mkNewTag protocol host originAccountID "News" (genID 0) now1).name = "News"
    ∧ (mkNewTag protocol host originAccountID "News" (genID 0) now1).useable = true
    ∧ (mkNewTag protocol host originAccountID "News" (genID 0) now1).id = genID 0
    ∧ TagStringsToTags
        (tagAfterUse (mkNewTag protocol host originAccountID "News" (genID 0) now1) now1 :: tagDB)
        protocol host genID2 now2 ["News"] originAccountID
      = Except.ok
          [tagAfterUse (mkNewTag protocol host originAccountID "News" (genID 0) now1) now2] := by
  have hlow : sqlLower "News" = "news" := by decide
  have hnone :
      tagDB.find? (fun tg => sqlLower tg.name == sqlLower "News") = none := by
    rw [List.find?_eq_none]
    intro tg hmem
    rw [hlow, beq_iff_eq]
    exact h tg hmem
  refine ⟨?_, rfl, rfl, rfl, ?_⟩
  · simp [TagStringsToTags, tagsLoop, hnone, mkNewTag]
  · have hpos :
        (sqlLower (tagAfterUse (mkNewTag protocol host originAccountID "News" (genID 0) now1)
            now1).name == sqlLower "News") = true := by
      rw [beq_iff_eq]
      rfl
    simp [TagStringsToTags, tagsLoop, List.find?_cons_of_pos _ hpos, tagAfterUse, mkNewTag]

/-- Witness for the amended claim C2 over the empty tag store. -/
theorem resolveTags_create_then_reuse_witness :
    TagStringsToTags [] "https" "example.org" genSample 100 ["News"] "OG"
      = Except.ok [tagAfterUse (mkNewTag "https" "example.org" "OG" "News" (genSample 0) 100) 100]
    ∧ (mkNewTag "https" "example.org" "OG" "News" (genSample 0) 100).name = "News"
    ∧ (mkNewTag "https" "example.org" "OG" "News" (genSample 0) 100).useable = true
    ∧ (mkNewTag "https" "example.org" "OG" "News" (genSample 0) 100).id = genSample 0
    ∧ TagStringsToTags
        (tagAfterUse (mkNewTag "https" "example.org" "OG" "News" (genSample 0) 100) 100 :: [])
        "https" "example.org" genSample2 200 ["News"] "OG"
      = Except.ok
          [tagAfterUse (mkNewTag "https" "example.org" "OG" "News" (genSample 0) 100) 200] :=
  resolveTags_create_then_reuse [] "https" "example.org" "OG" genSample genSample2 100 200
    (by simp)

/-- Every emoji the loop returns comes from the store and passed the
`visible_in_picker = true AND disabled = false` filter. -/
theorem emojiLoop_sound (emojiDB : List Emoji) (es : List String) :
    ∀ em ∈ emojiLoop emojiDB es,
      em ∈ emojiDB ∧ em.visibleInPicker = true ∧ em.disabled = false := by
  induction es with
  | nil => simp [emojiLoop]
  | cons e rest ih =>
    intro em hmem
    cases hf : emojiDB.find?
        (fun x => x.shortcode == e && x.visibleInPicker && !x.disabled) with
    | none =>
      rw [emojiLoop, hf] at hmem
      exact ih em hmem
    | some found =>
      rw [emojiLoop, hf] at hmem
      cases hmem with
      | head =>
        have hpred := List.find?_some hf
        rw [Bool.and_eq_true, Bool.and_eq_true, Bool.not_eq_eq_eq_not, Bool.not_true] at hpred
        exact ⟨List.mem_of_find?_eq_some hf, hpred.1.2, hpred.2⟩
      | tail _ hmem2 => exact ih em hmem2

/-- Claim C6: emoji resolution only returns emoji that are in the store,
visible in the picker and not disabled, never creates one, and treats a
missing shortcode as non-fatal: the input doesnotexist yields the empty
list and no error. -/
theorem resolveEmoji_filters_and_tolerates_no_match (emojiDB : List Emoji)
    (es : List String) (res : List Emoji) (em : Emoji)
    (h : ∀ x ∈ emojiDB, x.shortcode ≠ "doesnotexist")
    (hres : EmojiStringsToEmojis emojiDB es = Except.ok res)
    (hmem : em ∈ res) :
    EmojiStringsToEmojis emojiDB ["doesnotexist"] = Except.ok []
    ∧ em ∈ emojiDB ∧ em.visibleInPicker = true ∧ em.disabled = false := by
  have hnone : emojiDB.find?
      (fun x => x.shortcode == "doesnotexist" && x.visibleInPicker && !x.disabled) = none := by
    rw [List.find?_eq_none]
    intro x hx
    rw [Bool.and_eq_true, Bool.and_eq_true, beq_iff_eq]
    intro hc
    exact h x hx hc.1.1
  refine ⟨by simp [EmojiStringsToEmojis, emojiLoop, hnone], ?_⟩
  have : res = emojiLoop emojiDB es := by
    have := hres
    rw [EmojiStringsToEmojis] at this
    exact (Except.ok.injEq _ _).mp this.symm
  exact emojiLoop_sound emojiDB es em (this ▸ hmem)

/-- Witness for claim C6 over a one-emoji store. -/
theorem resolveEmoji_filters_and_tolerates_no_match_witness :
    EmojiStringsToEmojis [emojiSample] ["doesnotexist"] = Except.ok []
    ∧ emojiSample ∈ [emojiSample] ∧ emojiSample.visibleInPicker = true
    ∧ emojiSample.disabled = false :=
  resolveEmoji_filters_and_tolerates_no_match [emojiSample] ["smile"] [emojiSample] emojiSample
    (by decide) (by decide) (by decide)

/-- Entering the CA block with a set path, a readable file that is empty or
holds no PEM block, is a hard error. -/
theorem withCACert_err (env : CertEnv) (path content : String) (tc : TLSConfig)
    (hpath : path ≠ "")
    (hread : env.readFile path = Except.ok content)
    (hbad : content = "" ∨ env.pemDecode content = none) :
    exceptIsError (withCACert env path (some tc)) = true := by
  simp only [withCACert]
  rw [if_neg hpath]
  cases hsp : env.systemCertPool with
  | error e => simp [exceptIsError]
  | ok u =>
    rw [hread]
    rcases hbad with hb | hb
    · subst hb
      simp [exceptIsError]
    · by_cases hlen : content.length = 0
      · simp [hlen, exceptIsError]
      · simp [hlen, hb, exceptIsError]

/-- Claim C7: with the postgres backend selected, `deriveBunDBPGOptions`
returns a descriptive error whenever port is zero or address, user,
password or database name is empty; and with a TLS mode of enable or
require and a non-empty CA path, a CA file that reads back empty or does
not decode as PEM is also a hard error.  The function never opens a
connection: `pgConn` only calls `stdlib.OpenDB` after it succeeds. -/
theorem deriveBunDBPGOptions_fails_fast (env : CertEnv) (cfg : DBConfig) (content : String)
    (hty : sqlUpper cfg.dbType = "POSTGRES")
    (h : cfg.dbPort = 0 ∨ cfg.dbAddress = "" ∨ cfg.dbUser = "" ∨ cfg.dbPassword = ""
      ∨ cfg.dbDatabase = ""
      ∨ ((cfg.dbTLSMode = "enable" ∨ cfg.dbTLSMode = "require") ∧ cfg.dbTLSCACert ≠ ""
          ∧ env.readFile cfg.dbTLSCACert = Except.ok content
          ∧ (content = "" ∨ env.pemDecode content = none))) :
    exceptIsError (deriveBunDBPGOptions env cfg) = true := by
  unfold deriveBunDBPGOptions
  rw [if_neg (not_not_intro hty)]
  by_cases h1 : cfg.dbPort = 0
  · simp [h1, exceptIsError]
  rw [if_neg h1]
  by_cases h2 : cfg.dbAddress = ""
  · simp [h2, exceptIsError]
  rw [if_neg h2]
  by_cases h3 : cfg.dbUser = ""
  · simp [h3, exceptIsError]
  rw [if_neg h3]
  by_cases h4 : cfg.dbPassword = ""
  · simp [h4, exceptIsError]
  rw [if_neg h4]
  by_cases h5 : cfg.dbDatabase = ""
  · simp [h5, exceptIsError]
  rw [if_neg h5]
  rcases h with h | h | h | h | h | ⟨hmode, hpath, hread, hbad⟩
  · exact absurd h h1
  · exact absurd h h2
  · exact absurd h h3
  · exact absurd h h4
  · exact absurd h h5
  rcases hmode with hm | hm
  all_goals simp only [hm, String.reduceEq, or_self, or_false, false_or, if_false, if_true,
    ite_false, ite_true, reduceIte]
  · have hw := withCACert_err env cfg.dbTLSCACert content
      { insecureSkipVerify := true, serverName := "", minVersionTLS12 := false, rootCAs := none }
      hpath hread hbad
    cases hcw : withCACert env cfg.dbTLSCACert
        (some { insecureSkipVerify := true, serverName := "", minVersionTLS12 := false,
                rootCAs := none }) with
    | error e => simp [hcw, exceptIsError]
    | ok t => rw [hcw] at hw; simp [exceptIsError] at hw
  · have hw := withCACert_err env cfg.dbTLSCACert content
      { insecureSkipVerify := false, serverName := cfg.dbAddress, minVersionTLS12 := true,
        rootCAs := none }
      hpath hread hbad
    cases hcw : withCACert env cfg.dbTLSCACert
        (some { insecureSkipVerify := false, serverName := cfg.dbAddress,
                minVersionTLS12 := true, rootCAs := none }) with
    | error e => simp [hcw, exceptIsError]
    | ok t => rw [hcw] at hw; simp [exceptIsError] at hw

/-- Witness for claim C7 at a configuration with the port unset. -/
theorem deriveBunDBPGOptions_fails_fast_witness :
    exceptIsError (deriveBunDBPGOptions envSample cfgNoPort) = true :=
  deriveBunDBPGOptions_fails_fast envSample cfgNoPort "" (by decide) (Or.inl (by decide))

/-- Claim C9: with the postgres backend selected and all scalar fields set,
any TLS-mode string other than enable and require — disable, the empty
string, or anything unrecognized — falls through the switch: the
derivation succeeds with no TLS configuration (plaintext) and no
configuration error, and the CA block is skipped. -/
theorem deriveBunDBPGOptions_unknown_tlsmode_plaintext (env : CertEnv) (cfg : DBConfig)
    (hty : sqlUpper cfg.dbType = "POSTGRES")
    (h1 : cfg.dbPort ≠ 0) (h2 : cfg.dbAddress ≠ "") (h3 : cfg.dbUser ≠ "")
    (h4 : cfg.dbPassword ≠ "") (h5 : cfg.dbDatabase ≠ "")
    (hm1 : cfg.dbTLSMode ≠ "enable") (hm2 : cfg.dbTLSMode ≠ "require") :
    deriveBunDBPGOptions env cfg
      = Except.ok
          { host := cfg.dbAddress, port := cfg.dbPort, user := cfg.dbUser
            password := cfg.dbPassword, tlsConfig := none, database := cfg.dbDatabase
            preferSimpleProtocol := true, applicationName := cfg.applicationName } := by
  unfold deriveBunDBPGOptions
  rw [if_neg (not_not_intro hty), if_neg h1, if_neg h2, if_neg h3, if_neg h4, if_neg h5]
  by_cases hd : cfg.dbTLSMode = "disable" ∨ cfg.dbTLSMode = ""
  · rw [if_pos hd]
    simp [withCACert]
  · rw [if_neg hd, if_neg hm1, if_neg hm2]
    simp [withCACert]

/-- Witness for claim C9 at an unrecognized TLS-mode string. -/
theorem deriveBunDBPGOptions_unknown_tlsmode_plaintext_witness :
    deriveBunDBPGOptions envSample cfgBogusTLS
      = Except.ok
          { host := "localhost", port := 5432, user := "gts", password := "pw"
            tlsConfig := none, database := "gotosocial", preferSimpleProtocol := true
            applicationName := "gotosocial" } :=
  deriveBunDBPGOptions_unknown_tlsmode_plaintext envSample cfgBogusTLS (by decide) (by decide)
    (by decide) (by decide) (by decide) (by decide) (by decide) (by decide)

/-- Claim C8: `doMigration` succeeds both when the migrator reports group
id 0 (already-migrated steady state, logged as no new migrations and with
no further action taken) and when the migrator reports that no
migrations are defined at all, and the two success outcomes are
distinguishable. -/
theorem doMigration_tolerates_steady_state :
    doMigration steadyMigrator = Except.ok ["there are no new migrations to run"]
    ∧ doMigration noDefsMigrator = Except.ok []
    ∧ doMigration steadyMigrator ≠ doMigration noDefsMigrator := by
  refine ⟨by decide, by decide, by decide⟩
